import Mathlib

/-!
# Verification of the Archestra credential-acquisition engine

A shallow embedding, in Lean 4, of the OAuth / browser-token acquisition code of
the repository:

* `src/desktop_app/src/backend/server/plugins/oauth/providers/supabase-browser.ts`
  (navigation guard `navigationRules`, browser token extraction `extractTokens`);
* `src/desktop_app/src/backend/server/plugins/oauth/utils/supabase-token-extractor.ts`
  (URL classification helpers, project-ref regex, dashboard URL builder);
* `src/desktop_app/src/backend/server/plugins/mcp-oauth/provider.ts`
  (`discoverScopes`, `McpOAuthProvider`: `init`, `clientInformation`,
  `startCallbackServer`, the PKCE verifier store, `clear`).

Strings are modelled as lists of characters (`Str := List Char`); JavaScript
string primitives (`includes`, `startsWith`, `endsWith`, `split`) are given
direct recursive definitions below.  The WHATWG URL parser (`new URL(...)`) is a
platform primitive; it is modelled by `parseUrl`, a simplified parser that
extracts scheme / hostname / pathname / query and fails (`none`) on strings
without a valid scheme or with a malformed authority, mirroring the `URL`
constructor throwing.  Percent-decoding of query parameters is not modelled (no
verified property involves encoded values).  Network fetches, the database and
script evaluation in the embedded browser are external collaborators; they enter
the definitions as explicit outcome parameters (`Except`-valued oracles).
-/

set_option autoImplicit false

namespace Archestra

/-- Strings modelled as lists of characters. -/
abbrev Str := List Char

/-- Coerce a Lean string literal to the character-list model. -/
def str (s : String) : Str := s.toList

/-- JavaScript `String.prototype.startsWith`. -/
def startsWithStr : Str → Str → Bool
  | [], _ => true
  | _ :: _, [] => false
  | a :: as, b :: bs => if a = b then startsWithStr as bs else false

/-- JavaScript `String.prototype.endsWith`. -/
def endsWithStr (pat s : Str) : Bool :=
  startsWithStr pat.reverse s.reverse

/-- JavaScript `String.prototype.includes`: `pat` occurs as a contiguous
substring of `s`. -/
def includesStr (s pat : Str) : Bool :=
  startsWithStr pat s ||
    match s with
    | [] => false
    | _ :: t => includesStr t pat

/-- JavaScript truthiness of a nullable string: `null`/`undefined` and the
empty string are falsy. -/
def truthyOpt : Option Str → Bool
  | none => false
  | some s => !s.isEmpty

/-- Split a string at the first occurrence of a character satisfying `p`,
returning the part before and the part after (the matching character removed),
or `none` when no character matches. -/
def splitAtFirst (p : Char → Bool) : Str → Option (Str × Str)
  | [] => none
  | c :: t =>
    if p c then some ([], t)
    else (splitAtFirst p t).map (fun x => (c :: x.1, x.2))

/-- JavaScript `String.prototype.split` with a one-character separator. -/
def splitSep (sep : Char) : Str → List Str
  | [] => [[]]
  | c :: t =>
    if c = sep then [] :: splitSep sep t
    else
      match splitSep sep t with
      | [] => [[c]]
      | h :: r => (c :: h) :: r

/-! ## URL model

`UrlParts` is the observable part of a parsed WHATWG URL that this code reads:
`hostname` (lower-cased, empty for opaque-path URLs such as `javascript:...`)
and `pathname`. -/

structure UrlParts where
  hostname : Str
  pathname : Str
deriving DecidableEq, Repr

/-- Characters allowed in a URL scheme after the leading letter. -/
def isSchemeChar (c : Char) : Bool :=
  c.isAlpha || c.isDigit || c = '+' || c = '-' || c = '.'

/-- Characters that terminate the authority component. -/
def isAuthorityEnd (c : Char) : Bool :=
  c = '/' || c = '?' || c = '#'

/-- Characters that may not appear in a (non-IPv6) hostname; a hostname
containing one of them makes the `URL` constructor throw. -/
def isForbiddenHostChar (c : Char) : Bool :=
  c = '[' || c = ']' || c = ' ' || c = '%' || c = '@' || c = '\\'

/-- Model of the WHATWG `new URL(s)` constructor (absolute form).  Returns
`none` where the constructor would throw: no `scheme:` prefix, or a URL with an
authority whose host is empty or contains a forbidden character.  For URLs with
an authority (`scheme://...`) the hostname is the authority up to the first
`/`, `?` or `#`, with any `user@` prefix and `:port` suffix stripped and
letters lower-cased; the pathname is the following component up to `?` or `#`
(defaulting to `/`).  URLs without `//` after the scheme are opaque-path URLs:
hostname is empty and the pathname is the rest up to `?` or `#`. -/
def parseUrl (s : Str) : Option UrlParts :=
  match splitAtFirst (fun c => c = ':') s with
  | none => none
  | some (scheme, rest) =>
    match scheme with
    | [] => none
    | c0 :: cs =>
      if !(c0.isAlpha && cs.all isSchemeChar) then none
      else if startsWithStr (str "//") rest then
        let afterSlashes := rest.drop 2
        let authority := afterSlashes.takeWhile (fun c => !isAuthorityEnd c)
        let afterAuthority := afterSlashes.drop authority.length
        let hostPort :=
          match splitAtFirst (fun c => c = '@') authority with
          | some x => x.2
          | none => authority
        let host := hostPort.takeWhile (fun c => c ≠ ':')
        if host.isEmpty || host.any isForbiddenHostChar then none
        else
          let path := afterAuthority.takeWhile (fun c => c ≠ '?' && c ≠ '#')
          some ⟨host.map Char.toLower, if path.isEmpty then str "/" else path⟩
      else
        some ⟨[], rest.takeWhile (fun c => c ≠ '?' && c ≠ '#')⟩

/-! ## supabase-token-extractor.ts -/

/-- `isSupabaseLoginPage` from `supabase-token-extractor.ts`: the URL parses,
its hostname contains `supabase.com`, and its pathname is a login-shaped path;
a parse failure yields `false` (the `catch` branch). -/
def isSupabaseLoginPage (url : Str) : Bool :=
  match parseUrl url with
  | none => false
  | some u =>
    includesStr u.hostname (str "supabase.com") &&
    (includesStr u.pathname (str "/sign-in") ||
      includesStr u.pathname (str "/login") ||
      includesStr u.pathname (str "/auth") ||
      u.pathname = str "/" ||
      includesStr u.pathname (str "/signin"))

/-- `isSupabaseAuthenticatedPage` from `supabase-token-extractor.ts`: the URL
parses, its hostname contains `supabase.com`, and its pathname starts with one
of the authenticated dashboard prefixes; a parse failure yields `false`. -/
def isSupabaseAuthenticatedPage (url : Str) : Bool :=
  match parseUrl url with
  | none => false
  | some u =>
    includesStr u.hostname (str "supabase.com") &&
    (startsWithStr (str "/dashboard/project/") u.pathname ||
      startsWithStr (str "/dashboard/projects") u.pathname ||
      startsWithStr (str "/dashboard/account") u.pathname ||
      startsWithStr (str "/dashboard/settings") u.pathname)

/-- The literal part of the regex
`/supabase\.com\/dashboard\/project\/([a-zA-Z0-9-_]+)/`. -/
def projectRefPattern : Str := str "supabase.com/dashboard/project/"

/-- The character class `[a-zA-Z0-9-_]` of the project-ref regex. -/
def refChar (c : Char) : Bool := c.isAlpha || c.isDigit || c = '-' || c = '_'

/-- JavaScript `url.match(/supabase\.com\/dashboard\/project\/([a-zA-Z0-9-_]+)/)`,
returning the first capture group: the regex matches at the first position
where the literal prefix occurs followed by at least one `[a-zA-Z0-9-_]`
character, and the greedy capture takes the maximal run of such characters. -/
def matchProjectRef : Str → Option Str
  | [] => none
  | s@(_ :: t) =>
    let cap := (s.drop projectRefPattern.length).takeWhile refChar
    if startsWithStr projectRefPattern s && !cap.isEmpty then some cap
    else matchProjectRef t

/-- `extractProjectRefFromUrl` from `supabase-token-extractor.ts`. -/
def extractProjectRefFromUrl (url : Str) : Option Str :=
  matchProjectRef url

/-- `buildSupabaseDashboardUrl` from `supabase-token-extractor.ts`. -/
def buildSupabaseDashboardUrl (projectRef : Str) : Str :=
  str "https://supabase.com/dashboard/project/" ++ projectRef

/-! ## supabase-browser.ts -/

/-- `navigationRules` from `supabase-browser.ts`: parse the URL, then allow
navigation only to the allow-listed Supabase hostnames (exact hosts, or
`.supabase.com` / `.supabase.io` suffixes with a strictly longer hostname); a
URL-parse failure is caught and yields `false`. -/
def navigationRules (url : Str) : Bool :=
  match parseUrl url with
  | none => false
  | some u =>
    u.hostname = str "supabase.com" ||
    u.hostname = str "app.supabase.com" ||
    u.hostname = str "supabase.io" ||
    (endsWithStr (str ".supabase.com") u.hostname &&
      u.hostname.length > (str ".supabase.com").length) ||
    (endsWithStr (str ".supabase.io") u.hostname &&
      u.hostname.length > (str ".supabase.io").length)

/-- Result object returned by the injected page-verification script
(`SUPABASE_TOKEN_EXTRACTION_SCRIPT`): `{success, error?}`. -/
structure ScriptResult where
  success : Bool
  error : Option Str
deriving DecidableEq, Repr

/-- Outcomes of the two `webContents.executeJavaScript` calls made by
`extractTokens`.  `Except.error` models the evaluation throwing.  The token
script resolves to a token string or `null`; a token the script returns is
produced by a JavaScript truthiness check and is therefore never empty, but
emptiness is re-checked where the calling code checks truthiness. -/
structure BrowserOracle where
  verifyResult : Except Unit ScriptResult
  tokenResult : Except Unit (Option Str)

/-- The credential record `{primary_token, project_ref, extracted_from}`
returned by `extractTokens` on success. -/
structure ExtractedCredential where
  primary_token : Str
  project_ref : Option Str
  extracted_from : Str
deriving DecidableEq, Repr

/-- `extractTokens` from `supabase-browser.ts`.  `url` is
`webContents.getURL()`; `oracle` carries the outcomes of the two script
evaluations.  The second component counts how many scripts were evaluated
(`0` when the URL-classification gate returns early).  Mirrors the source:
return `null` on a login page; return `null` when the page is not an
authenticated page; otherwise run the verification script (an exception is
caught by the outer `catch` and yields `null`), run the token script (an
exception is caught by the inner `catch`, leaving the token `null`), and
return the credential record only when the verification reported success and
a truthy token was found. -/
def extractTokens (url : Str) (oracle : BrowserOracle) :
    Option ExtractedCredential × Nat :=
  if isSupabaseLoginPage url then (none, 0)
  else if !isSupabaseAuthenticatedPage url then (none, 0)
  else
    let projectRef := matchProjectRef url
    match oracle.verifyResult with
    | .error _ => (none, 1)
    | .ok result =>
      let accessToken : Option Str :=
        match oracle.tokenResult with
        | .error _ => none
        | .ok t => t
      if result.success && truthyOpt accessToken then
        (some ⟨accessToken.getD [], projectRef, url⟩, 2)
      else (none, 2)

/-! ## provider.ts: scope discovery, client information, init -/

/-- The slice of `OAuthServerConfig` that `discoverScopes`, `init` and
`clientInformation` read. -/
structure OAuthServerConfig where
  server_url : Str
  client_id : Option Str
  client_secret : Option Str
  scopes : List Str
  default_scopes : List Str
  supports_resource_metadata : Bool
  well_known_url : Option Str

/-- Outcome of one metadata fetch: the call threw (`Except.error`), or
returned metadata whose optional `scopes_supported` field is the payload. -/
abbrev FetchOutcome := Except Unit (Option (List Str))

/-- `discoverScopes` from `provider.ts`, with the two network calls
(`discoverOAuthProtectedResourceMetadata`,
`discoverAuthorizationServerMetadata`) supplied as outcome parameters.
Mirrors the source control flow: when the provider supports resource
metadata, a successful fetch with a non-empty `scopes_supported` wins (an
exception is caught and falls through); otherwise a successful
authorization-server metadata fetch with non-empty `scopes_supported` wins
(exception likewise caught); otherwise the configured default scopes are
returned. -/
def discoverScopes (config : OAuthServerConfig)
    (resourceFetch authServerFetch : FetchOutcome) : List Str :=
  let authServerStep : List Str :=
    match authServerFetch with
    | .ok (some l) => if l.isEmpty then config.default_scopes else l
    | _ => config.default_scopes
  if config.supports_resource_metadata then
    match resourceFetch with
    | .ok (some l) => if l.isEmpty then authServerStep else l
    | _ => authServerStep
  else authServerStep

/-- An OAuth client identity `{client_id, client_secret?}`. -/
structure ClientInformation where
  client_id : Str
  client_secret : Option Str
deriving DecidableEq, Repr

/-- The conditional-spread `...(secret && { client_secret: secret })`:
the secret field is kept only when truthy. -/
def secretField (s : Option Str) : Option Str :=
  if truthyOpt s then s else none

/-- Outcome of the database lookup `McpServerModel.getById(serverId)` as seen
by `clientInformation`: the lookup threw, or returned a row whose
`oauthClientInfo` field is the optional payload (`none` also covers a missing
row). -/
abbrev DbClientInfo := Except Unit (Option ClientInformation)

/-- Priority 2/3 of `clientInformation`: the cached dynamic registration from
the database if present, `undefined` otherwise; a database error is caught
and degrades to `undefined`. -/
def cachedClientInformation (db : DbClientInfo) : Option ClientInformation :=
  match db with
  | .ok (some cached) => some ⟨cached.client_id, secretField cached.client_secret⟩
  | .ok none => none
  | .error _ => none

/-- `clientInformation` from `provider.ts`: a truthy configured `client_id`
short-circuits to the static identity; otherwise fall back to the cached
dynamic registration; otherwise `undefined` (the dynamic-registration
sentinel). -/
def clientInformation (config : OAuthServerConfig) (db : DbClientInfo) :
    Option ClientInformation :=
  if truthyOpt config.client_id then
    some ⟨config.client_id.getD [], secretField config.client_secret⟩
  else cachedClientInformation db

/-- Lexicographic (UTF-16 code unit) strict order on strings, the order the
default JavaScript `Array.prototype.sort` comparator induces on strings. -/
def strLt : Str → Str → Bool
  | [], [] => false
  | [], _ :: _ => true
  | _ :: _, [] => false
  | a :: as, b :: bs =>
    if a.val < b.val then true
    else if b.val < a.val then false
    else strLt as bs

/-- Insert into a sorted list of strings. -/
def insertSorted (x : Str) : List Str → List Str
  | [] => [x]
  | y :: ys => if strLt y x then y :: insertSorted x ys else x :: y :: ys

/-- JavaScript `array.sort()` on an array of strings: the array re-ordered
into lexicographic order.  (Strings comparing equal are identical, so the
sorted result is unique and any correct sort models it.) -/
def jsSortScopes (l : List Str) : List Str := l.foldr insertSorted []

/-- The scope-update step of `init` from `provider.ts`.  `scopes` is
`this.config.scopes`; `discovered` is the result of `discoverScopes`.  The
source compares `JSON.stringify(discoveredScopes.sort())` with
`JSON.stringify(this.config.scopes.sort())` — JavaScript `sort()` sorts both
arrays in place — and assigns `this.config.scopes = discoveredScopes` (now
sorted) when they differ.  The result is the final value of
`this.config.scopes`: untouched when `discovered` is empty, otherwise the
sorted discovered list when the sorted lists differ, otherwise the (in-place
sorted) configured list. -/
def initScopes (scopes discovered : List Str) : List Str :=
  if discovered.isEmpty then scopes
  else if jsSortScopes discovered = jsSortScopes scopes then jsSortScopes scopes
  else jsSortScopes discovered

/-! ## provider.ts: PKCE verifier store and clear -/

/-- The module-level `codeVerifierStore : Map<string, string>` of
`provider.ts`, modelled extensionally as a key-to-value function (the only
observations the code makes are `get`, `set` and `delete`). -/
def VerifierStore := Str → Option Str

/-- The empty map. -/
def emptyStore : VerifierStore := fun _ => none

/-- `Map.prototype.set`. -/
def storeSet (m : VerifierStore) (k v : Str) : VerifierStore :=
  fun q => if q = k then some v else m q

/-- `Map.prototype.delete`. -/
def storeDel (m : VerifierStore) (k : Str) : VerifierStore :=
  fun q => if q = k then none else m q

/-- `saveCodeVerifier` from `provider.ts`:
`codeVerifierStore.set(this.serverId, codeVerifier)`. -/
def saveCodeVerifier (m : VerifierStore) (serverId v : Str) : VerifierStore :=
  storeSet m serverId v

/-- The message of the error thrown by `codeVerifier` when no verifier is
stored for the session. -/
def missingVerifierMsg : Str := str "No code verifier found for server"

/-- `codeVerifier` from `provider.ts`: look the verifier up and throw the
missing-verifier error on `if (!verifier)` — a JavaScript truthiness check,
which fires both when the map has no entry for the session and when the
stored verifier is the empty string. -/
def codeVerifier (m : VerifierStore) (serverId : Str) : Except Str Str :=
  match m serverId with
  | none => .error missingVerifierMsg
  | some v => if v.isEmpty then .error missingVerifierMsg else .ok v

/-- `clear` from `provider.ts`: delete the in-memory verifier for the
session, then attempt the database update nulling all OAuth fields;
`dbUpdate` is the outcome of that update.  A database error is caught and
logged, never rethrown, so the call always returns normally with the
in-memory deletion applied. -/
def clearSession (m : VerifierStore) (serverId : Str)
    (dbUpdate : Except Unit Unit) : Except Unit VerifierStore :=
  let cleared := storeDel m serverId
  match dbUpdate with
  | .ok _ => .ok cleared
  | .error _ => .ok cleared

/-- The operations of one session that touch its verifier entry:
`saveCodeVerifier`, the in-memory part of `clear`, and the (state-neutral)
`codeVerifier` read. -/
inductive VerifierOp where
  | save (v : Str)
  | clearOp
  | readOp
deriving DecidableEq, Repr

/-- Apply one operation of the session `serverId` to the store. -/
def applyVerifierOp (serverId : Str) (m : VerifierStore) :
    VerifierOp → VerifierStore
  | .save v => saveCodeVerifier m serverId v
  | .clearOp => storeDel m serverId
  | .readOp => m

/-- Run a trace of verifier operations of the session `serverId`. -/
def runVerifierOps (serverId : Str) (m : VerifierStore)
    (ops : List VerifierOp) : VerifierStore :=
  ops.foldl (applyVerifierOp serverId) m

/-- A `save` call has occurred since the last `clear`: some `save` in the
trace is followed by no `clear`. -/
def savedSinceLastClear (ops : List VerifierOp) : Prop :=
  ∃ l₁ v l₂, ops = l₁ ++ VerifierOp.save v :: l₂ ∧ VerifierOp.clearOp ∉ l₂

/-! ## provider.ts: loopback callback listener -/

/-- How the promise returned by `startCallbackServer` settles. -/
inductive FlowOutcome where
  | resolvedCode (code : Str)
  | oauthError (error : Str)
  | noCode
  | parseFailure
  | timedOut
deriving DecidableEq, Repr

/-- The listener's state: the settled outcome of the flow promise (a promise
settles at most once: later `resolve`/`reject` calls are no-ops) and whether
`server.close()` has been requested. -/
structure ListenerState where
  settled : Option FlowOutcome
  closeRequested : Bool
deriving DecidableEq, Repr

/-- The listener right after `server.listen(8080, ...)`. -/
def initialListener : ListenerState := ⟨none, false⟩

/-- Settle the flow promise (a no-op when already settled) and request the
listener's closure; every terminal branch of the request handler does both. -/
def settleAndClose (st : ListenerState) (o : FlowOutcome) : ListenerState :=
  { settled :=
      match st.settled with
      | some x => some x
      | none => some o,
    closeRequested := true }

/-- An incoming HTTP request as the handler sees it: `req.url`, the
request-target (path and query, or an absolute URL). -/
structure CallbackRequest where
  url : Str

/-- The handler's gate:
`req.url?.includes('code=') || req.url?.startsWith('/oauth/callback')`. -/
def reqQualifies (u : Str) : Bool :=
  includesStr u (str "code=") || startsWithStr (str "/oauth/callback") u

/-- The query component of a request-target: everything after the first `?`
and before any `#`. -/
def queryOf (u : Str) : Str :=
  match splitAtFirst (fun c => c = '?') u with
  | none => []
  | some x => x.2.takeWhile (fun c => c ≠ '#')

/-- `key=value` pair of a query string: the key. -/
def pairKey (p : Str) : Str := p.takeWhile (fun c => c ≠ '=')

/-- `key=value` pair of a query string: the value (empty when no `=`). -/
def pairValue (p : Str) : Str := (p.dropWhile (fun c => c ≠ '=')).drop 1

/-- `url.searchParams.get(name)`: the value of the first `&`-separated
non-empty pair whose key is `name`, or `null`.  (Percent-decoding is not
modelled.) -/
def getParam (query name : Str) : Option Str :=
  match ((splitSep '&' query).filter (fun p => !p.isEmpty)).find?
      (fun p => decide (pairKey p = name)) with
  | some p => some (pairValue p)
  | none => none

/-- Whether a request-target is in absolute URL form (`scheme:...`), in which
case `new URL(req.url, base)` parses it on its own rather than resolving it
against the base. -/
def hasSchemePrefix (u : Str) : Bool :=
  match u with
  | [] => false
  | c :: _ =>
    c.isAlpha &&
      match u.drop (u.takeWhile isSchemeChar).length with
      | ':' :: _ => true
      | _ => false

/-- Model of `new URL(req.url, 'http://localhost:8080')` as used by the
handler, which only reads the two query parameters: a relative
request-target always resolves against the base; an absolute one re-parses
with `parseUrl` and throwing is modelled by `none`. -/
def parseRequestUrl (u : Str) : Option Str :=
  if hasSchemePrefix u then
    match parseUrl u with
    | some _ => some (queryOf u)
    | none => none
  else some (queryOf u)

/-- The request handler of `startCallbackServer`, as a transition of the
listener state returning the HTTP status code written for the request.
Mirrors the source: a non-qualifying request gets the neutral 404 waiting
page and changes nothing; for a qualifying request the URL is parsed (a
parse exception gives 500 and rejects), then a truthy `error` parameter
gives 400 and rejects, a missing/falsy `code` gives 400 and rejects, and
otherwise the promise resolves with the code and 200 is written; every
terminal branch also calls `server.close()`. -/
def handleRequest (st : ListenerState) (req : CallbackRequest) :
    ListenerState × Nat :=
  if reqQualifies req.url then
    match parseRequestUrl req.url with
    | none => (settleAndClose st FlowOutcome.parseFailure, 500)
    | some query =>
      let code := getParam query (str "code")
      let errorParam := getParam query (str "error")
      if truthyOpt errorParam then
        (settleAndClose st (FlowOutcome.oauthError (errorParam.getD [])), 400)
      else if !truthyOpt code then
        (settleAndClose st FlowOutcome.noCode, 400)
      else
        (settleAndClose st (FlowOutcome.resolvedCode (code.getD [])), 200)
  else (st, 404)

/-- The 5-minute timeout firing: `server.close()` and reject with the
timeout error (a no-op on the promise when it already settled). -/
def fireTimeout (st : ListenerState) : ListenerState :=
  settleAndClose st FlowOutcome.timedOut

/-! ## Spec-side predicates -/

/-- The spec's allow-list condition on a hostname: exactly one of the three
allowed hosts, or an allowed suffix (`.supabase.com` / `.supabase.io`) with a
non-empty prefix.  Stated from the spec's words, independently of the
`endsWith`-plus-length formulation of the source, for claim C1. -/
def specAllowedHost (h : Str) : Prop :=
  h = str "supabase.com" ∨ h = str "app.supabase.com" ∨ h = str "supabase.io" ∨
  (∃ p, p ≠ [] ∧ h = p ++ str ".supabase.com") ∨
  (∃ p, p ≠ [] ∧ h = p ++ str ".supabase.io")

/-- A discovery fetch outcome that contributes no scopes: it threw, returned
metadata without `scopes_supported`, or returned an empty list. -/
def noScopeResult (f : FetchOutcome) : Prop :=
  f = .error () ∨ f = .ok none ∨ f = .ok (some [])

/-- The effect of one verifier operation on the session's own entry of the
store (the projection of `applyVerifierOp` to the key `serverId`). -/
def stepVerifier (s : Option Str) : VerifierOp → Option Str
  | .save v => some v
  | .clearOp => none
  | .readOp => s

/-! ## General lemmas about the string helpers -/

theorem startsWithStr_append (l m : Str) : startsWithStr l (l ++ m) = true := by
  induction l with
  | nil => rfl
  | cons a as ih => simp [startsWithStr, ih]

theorem startsWithStr_iff (l s : Str) : startsWithStr l s = true ↔ l <+: s := by
  induction l generalizing s with
  | nil => simp [startsWithStr]
  | cons a as ih =>
    cases s with
    | nil => simp [startsWithStr]
    | cons b bs =>
      by_cases hab : a = b
      · subst hab
        simp [startsWithStr, ih, List.cons_prefix_cons]
      · simp [startsWithStr, hab, List.cons_prefix_cons]

theorem endsWithStr_iff (pat s : Str) : endsWithStr pat s = true ↔ pat <:+ s := by
  rw [endsWithStr, startsWithStr_iff, List.reverse_prefix]

theorem endsWith_proper_iff (pat s : Str) :
    (endsWithStr pat s = true ∧ s.length > pat.length) ↔
      ∃ p, p ≠ [] ∧ s = p ++ pat := by
  rw [endsWithStr_iff]
  constructor
  · rintro ⟨⟨p, rfl⟩, hlen⟩
    refine ⟨p, ?_, rfl⟩
    rintro rfl
    simp at hlen
  · rintro ⟨p, hp, rfl⟩
    refine ⟨⟨p, rfl⟩, ?_⟩
    have := List.length_pos.mpr hp
    simp only [List.length_append]
    omega

/-! ## C1: the navigation guard fails closed -/

/-- C1: for every URL string whose hostname (as parsed) is not exactly an
allowed host and does not end with an allowed suffix with a non-empty prefix,
`navigationRules` returns `false`; and for every string on which URL parsing
fails, `navigationRules` returns `false` (fail closed). -/
theorem navigationRules_fail_closed (url : Str)
    (h : ∀ u, parseUrl url = some u → ¬ specAllowedHost u.hostname) :
    navigationRules url = false := by
  unfold navigationRules
  cases hp : parseUrl url with
  | none => rfl
  | some u =>
    have hna := h u hp
    rw [specAllowedHost] at hna
    push_neg at hna
    obtain ⟨h1, h2, h3, h4, h5⟩ := hna
    have h4b : (endsWithStr (str ".supabase.com") u.hostname &&
        decide (u.hostname.length > (str ".supabase.com").length)) = false := by
      rw [Bool.and_eq_false_iff]
      by_cases he : endsWithStr (str ".supabase.com") u.hostname = true
      · right
        simp only [decide_eq_false_iff_not]
        intro hlen
        obtain ⟨p, hp1, hp2⟩ := (endsWith_proper_iff _ _).mp ⟨he, hlen⟩
        exact h4 p hp1 hp2
      · left
        simpa using he
    have h5b : (endsWithStr (str ".supabase.io") u.hostname &&
        decide (u.hostname.length > (str ".supabase.io").length)) = false := by
      rw [Bool.and_eq_false_iff]
      by_cases he : endsWithStr (str ".supabase.io") u.hostname = true
      · right
        simp only [decide_eq_false_iff_not]
        intro hlen
        obtain ⟨p, hp1, hp2⟩ := (endsWith_proper_iff _ _).mp ⟨he, hlen⟩
        exact h5 p hp1 hp2
      · left
        simpa using he
    simp [h1, h2, h3, h4b, h5b]

/-- Witness for C1 at the concrete rejected URL `https://evil.com/path` and
the concrete malformed string `not a url`. -/
theorem navigationRules_fail_closed_witness :
    navigationRules (str "https://evil.com/path") = false ∧
    navigationRules (str "not a url") = false := by
  constructor
  · apply navigationRules_fail_closed
    intro u hu
    rw [show parseUrl (str "https://evil.com/path") =
        some ⟨str "evil.com", str "/path"⟩ from by decide] at hu
    obtain rfl := (Option.some.inj hu).symm
    rintro (h | h | h | ⟨p, hp, he⟩ | ⟨p, hp, he⟩)
    · exact absurd h (by decide)
    · exact absurd h (by decide)
    · exact absurd h (by decide)
    · have := congrArg List.length he
      simp [str] at this
    · have := congrArg List.length he
      simp [str] at this
  · apply navigationRules_fail_closed
    intro u hu
    rw [show parseUrl (str "not a url") = none from by decide] at hu
    exact absurd hu (by simp)

/-! ## C10: round-trip of the Supabase URL helpers -/

theorem matchProjectRef_cons (a : Char) (t : Str)
    (h : startsWithStr projectRefPattern (a :: t) = false) :
    matchProjectRef (a :: t) = matchProjectRef t := by
  rw [matchProjectRef]
  simp [h]

/-- C10: for every non-empty project reference consisting only of
`[a-zA-Z0-9-_]` characters, extracting the project ref from the dashboard URL
built for it returns exactly the reference. -/
theorem extractProjectRef_build_roundtrip (ref : Str) (h1 : ref ≠ [])
    (h2 : ∀ c ∈ ref, refChar c = true) :
    extractProjectRefFromUrl (buildSupabaseDashboardUrl ref) = some ref := by
  have hb : buildSupabaseDashboardUrl ref = str "https://" ++ (projectRefPattern ++ ref) := by
    simp [buildSupabaseDashboardUrl, projectRefPattern, str]
  have htake : ref.takeWhile refChar = ref := List.takeWhile_eq_self_iff.mpr h2
  have hcap : ((projectRefPattern ++ ref).drop projectRefPattern.length).takeWhile refChar
      = ref := by
    rw [List.drop_left, htake]
  rw [extractProjectRefFromUrl, hb]
  rw [show str "https://" = ['h', 't', 't', 'p', 's', ':', '/', '/'] from by decide]
  simp only [List.cons_append, List.nil_append]
  rw [matchProjectRef_cons _ _ (by simp [projectRefPattern, str, startsWithStr])]
  rw [matchProjectRef_cons _ _ (by simp [projectRefPattern, str, startsWithStr])]
  rw [matchProjectRef_cons _ _ (by simp [projectRefPattern, str, startsWithStr])]
  rw [matchProjectRef_cons _ _ (by simp [projectRefPattern, str, startsWithStr])]
  rw [matchProjectRef_cons _ _ (by simp [projectRefPattern, str, startsWithStr])]
  rw [matchProjectRef_cons _ _ (by simp [projectRefPattern, str, startsWithStr])]
  rw [matchProjectRef_cons _ _ (by simp [projectRefPattern, str, startsWithStr])]
  rw [matchProjectRef_cons _ _ (by simp [projectRefPattern, str, startsWithStr])]
  have hcons : projectRefPattern ++ ref
      = 's' :: (str "upabase.com/dashboard/project/" ++ ref) := by
    simp [projectRefPattern, str]
  rw [hcons, matchProjectRef, ← List.cons_append,
    ← show projectRefPattern = 's' :: str "upabase.com/dashboard/project/" from by decide]
  rw [startsWithStr_append]
  simp only [hcap, Bool.true_and]
  simp [h1]

/-- Witness for C10 at the concrete project reference `abc-123`. -/
theorem extractProjectRef_build_roundtrip_witness :
    extractProjectRefFromUrl (buildSupabaseDashboardUrl (str "abc-123"))
      = some (str "abc-123") :=
  extractProjectRef_build_roundtrip (str "abc-123") (by decide) (by decide)

/-! ## C2: static client identity takes precedence over the cache -/

/-- C2: with a truthy (non-empty) static `client_id`, `clientInformation`
returns the static identity and its result is independent of the database
(it never returns a cached dynamic registration); without one it returns the
cached registration when the database has one, and `undefined` (the
dynamic-registration sentinel) when the database has none or the lookup
fails. -/
theorem clientInformation_static_priority (config : OAuthServerConfig)
    (db db2 : DbClientInfo) :
    (truthyOpt config.client_id = true →
      clientInformation config db =
        some ⟨config.client_id.getD [], secretField config.client_secret⟩ ∧
      clientInformation config db = clientInformation config db2) ∧
    (truthyOpt config.client_id = false →
      (∀ cached, db = .ok (some cached) →
        clientInformation config db =
          some ⟨cached.client_id, secretField cached.client_secret⟩) ∧
      ((db = .ok none ∨ db = .error ()) → clientInformation config db = none)) := by
  constructor
  · intro h
    simp [clientInformation, h]
  · intro h
    constructor
    · intro cached hdb
      simp [clientInformation, h, hdb, cachedClientInformation]
    · rintro (hdb | hdb) <;> simp [clientInformation, h, hdb, cachedClientInformation]

/-- Witness for C2: a configuration with static id `static-id` ignores a
cached registration `cached-id`. -/
theorem clientInformation_static_priority_witness :
    clientInformation
      ⟨[], some (str "static-id"), none, [], [], false, none⟩
      (.ok (some ⟨str "cached-id", none⟩)) = some ⟨str "static-id", none⟩ := by
  have h := (clientInformation_static_priority
    ⟨[], some (str "static-id"), none, [], [], false, none⟩
    (.ok (some ⟨str "cached-id", none⟩)) (.error ())).1 (by decide)
  exact h.1

/-! ## C5: scope discovery is a fail-soft priority chain -/

/-- C5: scope discovery is a strict priority chain in which the first
non-empty result wins — resource-metadata scopes (only when supported), then
authorization-server metadata scopes, then configured defaults; every
discovery error is absorbed as no-result (the function is total over all
fetch outcomes), and with non-empty default scopes the result is never
empty. -/
theorem discoverScopes_priority_chain (config : OAuthServerConfig)
    (resourceFetch authServerFetch : FetchOutcome) :
    (∀ l, config.supports_resource_metadata = true →
      resourceFetch = .ok (some l) → l ≠ [] →
      discoverScopes config resourceFetch authServerFetch = l) ∧
    (∀ l, (config.supports_resource_metadata = false ∨ noScopeResult resourceFetch) →
      authServerFetch = .ok (some l) → l ≠ [] →
      discoverScopes config resourceFetch authServerFetch = l) ∧
    ((config.supports_resource_metadata = false ∨ noScopeResult resourceFetch) →
      noScopeResult authServerFetch →
      discoverScopes config resourceFetch authServerFetch = config.default_scopes) ∧
    (config.default_scopes ≠ [] →
      discoverScopes config resourceFetch authServerFetch ≠ []) := by
  refine ⟨?_, ?_, ?_, ?_⟩
  · intro l hs hr hl
    simp [discoverScopes, hs, hr, List.isEmpty_iff, hl]
  · intro l hres hauth hl
    rcases hres with hs | hnr
    · simp [discoverScopes, hs, hauth, List.isEmpty_iff, hl]
    · cases hsup : config.supports_resource_metadata <;>
        rcases hnr with h | h | h <;>
        simp [discoverScopes, hsup, h, hauth, List.isEmpty_iff, hl]
  · intro hres hauth
    rcases hres with hs | hnr
    · rcases hauth with ha | ha | ha <;> simp [discoverScopes, hs, ha]
    · cases hsup : config.supports_resource_metadata <;>
        rcases hnr with h | h | h <;>
        rcases hauth with ha | ha | ha <;>
        simp [discoverScopes, hsup, h, ha]
  · intro hd
    unfold discoverScopes
    repeat' split
    all_goals simp_all [List.isEmpty_iff]

/-- Witness for C5: default scopes `[read]` survive both discovery calls
throwing. -/
theorem discoverScopes_priority_chain_witness :
    discoverScopes ⟨[], none, none, [], [str "read"], true, none⟩
      (.error ()) (.error ()) ≠ [] :=
  (discoverScopes_priority_chain _ _ _).2.2.2 (by decide)

/-! ## C7: clear always removes the verifier, never propagates -/

/-- C7: `clear` returns normally for every database outcome (a
persistence-layer error is absorbed), the in-memory deletion always takes
effect, and a subsequent `codeVerifier` read fails with the missing-verifier
error. -/
theorem clear_leaves_no_verifier (m : VerifierStore) (serverId : Str)
    (dbUpdate : Except Unit Unit) :
    clearSession m serverId dbUpdate = .ok (storeDel m serverId) ∧
    storeDel m serverId serverId = none ∧
    codeVerifier (storeDel m serverId) serverId = .error missingVerifierMsg := by
  refine ⟨?_, ?_, ?_⟩
  · cases dbUpdate <;> rfl
  · simp [storeDel]
  · simp [codeVerifier, storeDel]

/-! ## C3: the listener settles once, but re-serves the terminal response -/

/-- C3 counterexample: after a first qualifying callback request has settled
the flow with code `abc`, a second qualifying request arriving before closure
leaves the outcome untouched but is answered with the terminal 200 success
response recomputed by the stateless handler — not with the neutral 404
waiting response the claim asserts. -/
theorem listener_second_request_not_waiting :
    (handleRequest (handleRequest initialListener
        ⟨str "/oauth/callback?code=abc"⟩).1
      ⟨str "/oauth/callback?code=second"⟩).1.settled
        = some (FlowOutcome.resolvedCode (str "abc")) ∧
    (handleRequest (handleRequest initialListener
        ⟨str "/oauth/callback?code=abc"⟩).1
      ⟨str "/oauth/callback?code=second"⟩).2 = 200 ∧
    ¬ (handleRequest (handleRequest initialListener
        ⟨str "/oauth/callback?code=abc"⟩).1
      ⟨str "/oauth/callback?code=second"⟩).2 = 404 := by
  decide

/-- C3 (amended): the flow's outcome settles exactly once — once settled, no
later request or timeout changes it — and a later non-qualifying request gets
the neutral 404 waiting response without touching the state; but a later
qualifying request is answered by the stateless handler with a terminal-style
status (200/400/500), never the 404 waiting response. -/
theorem listener_settles_once (st : ListenerState) (o : FlowOutcome)
    (req : CallbackRequest) (h : st.settled = some o) :
    (handleRequest st req).1.settled = some o ∧
    (fireTimeout st).settled = some o ∧
    (reqQualifies req.url = false → handleRequest st req = (st, 404)) ∧
    (reqQualifies req.url = true → (handleRequest st req).2 ≠ 404) := by
  refine ⟨?_, by simp [fireTimeout, settleAndClose, h], ?_, ?_⟩
  · simp only [handleRequest]
    repeat' split
    all_goals simp [settleAndClose, h]
  · intro hq
    simp [handleRequest, hq]
  · intro hq
    simp only [handleRequest, hq, if_true]
    repeat' split
    all_goals simp

/-- Witness for C3 (amended) at a settled listener receiving a second
qualifying request. -/
theorem listener_settles_once_witness :
    (handleRequest ⟨some (FlowOutcome.resolvedCode (str "abc")), true⟩
      ⟨str "/oauth/callback?code=second"⟩).1.settled
        = some (FlowOutcome.resolvedCode (str "abc")) :=
  (listener_settles_once ⟨some (FlowOutcome.resolvedCode (str "abc")), true⟩
    (FlowOutcome.resolvedCode (str "abc"))
    ⟨str "/oauth/callback?code=second"⟩ rfl).1

/-! ## C8: token extraction is gated purely by URL classification -/

/-- C8: `extractTokens` returns `null` without evaluating any script on a
login-classified URL or on a URL not classified authenticated; on an
authenticated URL it returns `null` (not an error) when the verification
script reports failure or the token script yields no token; and it returns a
credential record exactly when the page is authenticated-classified, the
verification script reports success, and a truthy token was found — with the
record carrying that token, the project ref extracted from the URL, and the
URL itself. -/
theorem extractTokens_gated (url : Str) (oracle : BrowserOracle) :
    (isSupabaseLoginPage url = true → extractTokens url oracle = (none, 0)) ∧
    (isSupabaseAuthenticatedPage url = false → extractTokens url oracle = (none, 0)) ∧
    (∀ r, isSupabaseAuthenticatedPage url = true →
      oracle.verifyResult = .ok r →
      (r.success = false ∨ oracle.tokenResult = .ok none) →
      (extractTokens url oracle).1 = none) ∧
    (∀ cred, (extractTokens url oracle).1 = some cred →
      isSupabaseLoginPage url = false ∧ isSupabaseAuthenticatedPage url = true ∧
      ∃ r tok, oracle.verifyResult = .ok r ∧ r.success = true ∧
        oracle.tokenResult = .ok (some tok) ∧ tok ≠ [] ∧
        cred = ⟨tok, matchProjectRef url, url⟩) := by
  refine ⟨?_, ?_, ?_, ?_⟩
  · intro h
    simp [extractTokens, h]
  · intro h
    by_cases hl : isSupabaseLoginPage url <;> simp [extractTokens, hl, h]
  · intro r ha hv hfail
    by_cases hl : isSupabaseLoginPage url
    · simp [extractTokens, hl]
    · rcases hfail with hs | ht
      · rcases htok : oracle.tokenResult with e | t <;>
          simp [extractTokens, hl, ha, hv, hs, htok]
      · simp [extractTokens, hl, ha, hv, ht, truthyOpt]
  · intro cred hcred
    by_cases hl : isSupabaseLoginPage url
    · simp [extractTokens, hl] at hcred
    by_cases ha : isSupabaseAuthenticatedPage url
    · refine ⟨by simpa using hl, ha, ?_⟩
      rcases hv : oracle.verifyResult with e | r
      · simp [extractTokens, hl, ha, hv] at hcred
      · rcases ht : oracle.tokenResult with e | t
        · simp [extractTokens, hl, ha, hv, ht, truthyOpt] at hcred
        · rcases t with _ | tok
          · simp [extractTokens, hl, ha, hv, ht, truthyOpt] at hcred
          · by_cases hs : r.success
            · by_cases htok : tok.isEmpty
              · simp [extractTokens, hl, ha, hv, ht, truthyOpt, hs, htok] at hcred
              · refine ⟨r, tok, rfl, hs, rfl, by simpa using htok, ?_⟩
                simp [extractTokens, hl, ha, hv, ht, truthyOpt, hs, htok] at hcred
                exact hcred.symm
            · simp [extractTokens, hl, ha, hv, ht, truthyOpt,
                Bool.eq_false_iff.mpr hs] at hcred
    · simp [extractTokens, hl, ha] at hcred

/-- Witness for C8: a login-shaped URL short-circuits with no script
evaluation even when the oracles carry a successful result. -/
theorem extractTokens_gated_witness :
    extractTokens (str "https://supabase.com/dashboard/sign-in")
      ⟨.ok ⟨true, none⟩, .ok (some (str "tok"))⟩ = (none, 0) :=
  (extractTokens_gated _ _).1 (by decide)

/-! ## C9: the scope-update step of init -/

/-- C9 counterexample: with configured scopes `["write","read"]` and a
discovered list `["read","write"]` that is equal as a sorted set, `init`
nevertheless changes the in-memory scope configuration (JavaScript `sort()`
sorts `this.config.scopes` in place during the comparison), refuting the
claimed "updates if and only if the sorted sets differ". -/
theorem initScopes_sorted_eq_still_mutates :
    jsSortScopes [str "read", str "write"] = jsSortScopes [str "write", str "read"] ∧
    initScopes [str "write", str "read"] [str "read", str "write"]
      ≠ [str "write", str "read"] := by
  decide

/-- C9 (amended): when discovery yields a non-empty list, `init` sets the
scopes to the sorted discovered list exactly when the two lists differ as
sorted sets, and otherwise leaves the configured scope *set* in place —
though re-sorted in place by the JavaScript `sort()` used for the
comparison; the claim's scenario holds: with configured scopes and default
scopes `["read","write"]` (already sorted) and no discovery endpoint
reachable, `init` leaves the scopes unchanged at `["read","write"]`. -/
theorem initScopes_spec (scopes discovered : List Str) (hne : discovered ≠ []) :
    (jsSortScopes discovered ≠ jsSortScopes scopes →
      initScopes scopes discovered = jsSortScopes discovered) ∧
    (jsSortScopes discovered = jsSortScopes scopes →
      initScopes scopes discovered = jsSortScopes scopes) ∧
    initScopes [str "read", str "write"]
        (discoverScopes
          ⟨[], none, none, [str "read", str "write"], [str "read", str "write"],
            true, none⟩
          (.error ()) (.error ())) = [str "read", str "write"] := by
  refine ⟨?_, ?_, by decide⟩
  · intro h
    simp [initScopes, List.isEmpty_iff, hne, h]
  · intro h
    simp [initScopes, List.isEmpty_iff, hne, h]

/-- Witness for C9 (amended): a differing discovered list replaces the
configured scopes. -/
theorem initScopes_spec_witness :
    initScopes [str "a"] [str "b"] = [str "b"] := by
  have h := (initScopes_spec [str "a"] [str "b"] (by decide)).1 (by decide)
  rw [h]
  decide

/-! ## C4: status-code-to-outcome mapping of the callback listener -/

theorem splitSep_not_mem {sep : Char} : ∀ {l : Str}, sep ∉ l → splitSep sep l = [l]
  | [], _ => rfl
  | c :: t, h => by
    have hc : ¬ c = sep := fun hcs => h (hcs ▸ List.mem_cons_self c t)
    rw [splitSep, if_neg hc, splitSep_not_mem (fun ht => h (List.mem_cons_of_mem c ht))]

theorem getParam_of_single (q name : Str) (hq : '&' ∉ q) (hne : q ≠ []) :
    getParam q name = if pairKey q = name then some (pairValue q) else none := by
  unfold getParam
  rw [splitSep_not_mem hq]
  have hemp : q.isEmpty = false := by
    simp [List.isEmpty_iff, hne]
  have hfilter : [q].filter (fun p => !p.isEmpty) = [q] := by
    simp [List.filter, hemp]
  rw [hfilter]
  by_cases h : pairKey q = name <;> simp [List.find?, h]

theorem queryOf_callback_error (e : Str) (h : '#' ∉ e) :
    queryOf (str "/oauth/callback?error=" ++ e) = str "error=" ++ e := by
  simp [queryOf, splitAtFirst, str]
  intro x hx heq
  exact h (heq ▸ hx)

theorem pairKey_error_pair (e : Str) : pairKey (str "error=" ++ e) = str "error" := by
  simp [pairKey, str]

theorem pairValue_error_pair (e : Str) : pairValue (str "error=" ++ e) = e := by
  simp [pairValue, str]

theorem reqQualifies_callback_error (e : Str) :
    reqQualifies (str "/oauth/callback?error=" ++ e) = true := by
  have : startsWithStr (str "/oauth/callback")
      (str "/oauth/callback?error=" ++ e) = true := by
    rw [show str "/oauth/callback?error=" = str "/oauth/callback" ++ str "?error="
        from by decide, List.append_assoc]
    exact startsWithStr_append _ _
  simp [reqQualifies, this]

theorem parseRequestUrl_callback_error (e : Str) (h : '#' ∉ e) :
    parseRequestUrl (str "/oauth/callback?error=" ++ e) = some (str "error=" ++ e) := by
  have hscheme : hasSchemePrefix (str "/oauth/callback?error=" ++ e) = false := by
    rw [show str "/oauth/callback?error=" = '/' :: str "oauth/callback?error="
        from by decide, List.cons_append]
    simp [hasSchemePrefix, show ('/').isAlpha = false from by decide]
  simp [parseRequestUrl, hscheme, queryOf_callback_error e h]

theorem getParam_error_value (e : Str) (h : '&' ∉ e) :
    getParam (str "error=" ++ e) (str "error") = some e := by
  have hq : '&' ∉ str "error=" ++ e := by
    intro hm
    rcases List.mem_append.mp hm with hm | hm
    · exact absurd hm (by decide)
    · exact h hm
  rw [getParam_of_single _ _ hq (by simp [str]), if_pos (pairKey_error_pair e),
    pairValue_error_pair]

theorem getParam_error_no_code (e : Str) (h : '&' ∉ e) :
    getParam (str "error=" ++ e) (str "code") = none := by
  have hq : '&' ∉ str "error=" ++ e := by
    intro hm
    rcases List.mem_append.mp hm with hm | hm
    · exact absurd hm (by decide)
    · exact h hm
  rw [getParam_of_single _ _ hq (by simp [str])]
  rw [pairKey_error_pair]
  simp [str]

/-- C4: the status-code-to-outcome mapping of the callback listener: a
callback with `?code=abc123` resolves the flow with code `abc123` and 200;
a callback carrying a truthy `error` parameter rejects with the OAuth-error
outcome and 400; a callback with neither rejects with the no-code outcome
and 400; an unrelated (non-qualifying) request gets 404 and does not settle;
a qualifying request whose URL fails to parse gets 500 and rejects with the
parse-failure outcome; and the timeout firing rejects with the timeout
outcome. -/
theorem callback_status_outcomes (st : ListenerState) (h : st.settled = none) :
    (handleRequest st ⟨str "/oauth/callback?code=abc123"⟩ =
      (⟨some (FlowOutcome.resolvedCode (str "abc123")), true⟩, 200)) ∧
    (∀ e, e ≠ [] → '&' ∉ e → '#' ∉ e →
      handleRequest st ⟨str "/oauth/callback?error=" ++ e⟩ =
        (⟨some (FlowOutcome.oauthError e), true⟩, 400)) ∧
    (handleRequest st ⟨str "/oauth/callback"⟩ =
      (⟨some FlowOutcome.noCode, true⟩, 400)) ∧
    (∀ u, reqQualifies u = false → handleRequest st ⟨u⟩ = (st, 404)) ∧
    (∀ u, reqQualifies u = true → parseRequestUrl u = none →
      handleRequest st ⟨u⟩ = (⟨some FlowOutcome.parseFailure, true⟩, 500)) ∧
    fireTimeout st = ⟨some FlowOutcome.timedOut, true⟩ := by
  have hsc : ∀ o, settleAndClose st o = ⟨some o, true⟩ := by
    intro o
    simp [settleAndClose, h]
  refine ⟨?_, ?_, ?_, ?_, ?_, ?_⟩
  · have h1 : reqQualifies (str "/oauth/callback?code=abc123") = true := by decide
    have h2 : parseRequestUrl (str "/oauth/callback?code=abc123")
        = some (str "code=abc123") := by decide
    have h3 : getParam (str "code=abc123") (str "code") = some (str "abc123") := by
      decide
    have h4 : getParam (str "code=abc123") (str "error") = none := by decide
    have h5 : truthyOpt (some (str "abc123")) = true := by decide
    have h6 : truthyOpt none = false := rfl
    simp [handleRequest, h1, h2, h3, h4, h5, h6, hsc]
  · intro e hne hamp hhash
    have h1 := reqQualifies_callback_error e
    have h2 := parseRequestUrl_callback_error e hhash
    have h3 := getParam_error_value e hamp
    have h4 := getParam_error_no_code e hamp
    simp [handleRequest, h1, h2, h3, h4, truthyOpt, List.isEmpty_iff, hne, hsc]
  · have h1 : reqQualifies (str "/oauth/callback") = true := by decide
    have h2 : parseRequestUrl (str "/oauth/callback") = some [] := by decide
    have h3 : getParam [] (str "code") = none := by decide
    have h4 : getParam [] (str "error") = none := by decide
    simp [handleRequest, h1, h2, h3, h4, truthyOpt, hsc]
  · intro u hq
    simp [handleRequest, hq]
  · intro u hq hp
    simp [handleRequest, hq, hp, hsc]
  · simp [fireTimeout, settleAndClose, h]

/-- Witness for C4 at the fresh listener and the concrete error value
`access_denied`. -/
theorem callback_status_outcomes_witness :
    handleRequest initialListener ⟨str "/oauth/callback?error=access_denied"⟩ =
      (⟨some (FlowOutcome.oauthError (str "access_denied")), true⟩, 400) := by
  have h := (callback_status_outcomes initialListener rfl).2.1
    (str "access_denied") (by decide) (by decide) (by decide)
  rw [show str "/oauth/callback?error=access_denied"
      = str "/oauth/callback?error=" ++ str "access_denied" from by decide]
  exact h

/-! ## C6: the verifier read fails exactly when nothing was saved since the
last clear -/

theorem runVerifierOps_proj (serverId : Str) (m : VerifierStore)
    (ops : List VerifierOp) :
    runVerifierOps serverId m ops serverId = ops.foldl stepVerifier (m serverId) := by
  induction ops generalizing m with
  | nil => rfl
  | cons op rest ih =>
    show runVerifierOps serverId (applyVerifierOp serverId m op) rest serverId = _
    rw [ih, List.foldl_cons]
    congr 1
    cases op <;>
      simp [applyVerifierOp, saveCodeVerifier, storeSet, storeDel, stepVerifier]

theorem foldl_step_append_save (s : Option Str) (l₁ l₂ : List VerifierOp) (v : Str) :
    (l₁ ++ VerifierOp.save v :: l₂).foldl stepVerifier s
      = l₂.foldl stepVerifier (some v) := by
  rw [List.foldl_append, List.foldl_cons]
  rfl

theorem foldl_step_isSome_of_no_clear (l : List VerifierOp) (v : Str)
    (h : VerifierOp.clearOp ∉ l) :
    ∃ w, l.foldl stepVerifier (some v) = some w := by
  induction l generalizing v with
  | nil => exact ⟨v, rfl⟩
  | cons op rest ih =>
    have hrest : VerifierOp.clearOp ∉ rest := fun hm => h (List.mem_cons_of_mem _ hm)
    cases op with
    | save u => simpa [stepVerifier] using ih u hrest
    | clearOp => exact absurd (List.mem_cons_self _ _) h
    | readOp => simpa [stepVerifier] using ih v hrest

theorem foldl_step_reads (l : List VerifierOp) (s : Option Str)
    (h : ∀ op ∈ l, op = VerifierOp.readOp) : l.foldl stepVerifier s = s := by
  induction l with
  | nil => rfl
  | cons op rest ih =>
    have hop := h op (List.mem_cons_self _ _)
    subst hop
    exact ih (fun op hm => h op (List.mem_cons_of_mem _ hm))

theorem not_saved_nil : ¬ savedSinceLastClear [] := by
  rintro ⟨l₁, v, l₂, heq, -⟩
  have := congrArg List.length heq
  simp at this
  omega

theorem saved_append_save (ops : List VerifierOp) (v : Str) :
    savedSinceLastClear (ops ++ [VerifierOp.save v]) :=
  ⟨ops, v, [], rfl, by simp⟩

theorem not_saved_append_clear (ops : List VerifierOp) :
    ¬ savedSinceLastClear (ops ++ [VerifierOp.clearOp]) := by
  rintro ⟨l₁, v, l₂, heq, hnc⟩
  rcases List.eq_nil_or_concat l₂ with rfl | ⟨l₂x, a, rfl⟩
  · have := (List.append_inj' heq rfl).2
    simp at this
  · have heq2 : ops ++ [VerifierOp.clearOp]
        = (l₁ ++ VerifierOp.save v :: l₂x) ++ [a] := by
      simpa [List.append_assoc] using heq
    have ha : VerifierOp.clearOp = a := by
      have := (List.append_inj' heq2 rfl).2
      simpa using this
    exact hnc (by simp [← ha])

theorem saved_append_read_iff (ops : List VerifierOp) :
    savedSinceLastClear (ops ++ [VerifierOp.readOp]) ↔ savedSinceLastClear ops := by
  constructor
  · rintro ⟨l₁, v, l₂, heq, hnc⟩
    rcases List.eq_nil_or_concat l₂ with rfl | ⟨l₂x, a, rfl⟩
    · have := (List.append_inj' heq rfl).2
      simp at this
    · have heq2 : ops ++ [VerifierOp.readOp]
          = (l₁ ++ VerifierOp.save v :: l₂x) ++ [a] := by
        simpa [List.append_assoc] using heq
      have hops : ops = l₁ ++ VerifierOp.save v :: l₂x :=
        (List.append_inj' heq2 rfl).1
      exact ⟨l₁, v, l₂x, hops, fun hm => hnc (by simp [hm])⟩
  · rintro ⟨l₁, v, l₂, rfl, hnc⟩
    exact ⟨l₁, v, l₂ ++ [VerifierOp.readOp], by simp, by
      intro hm
      rcases List.mem_append.mp hm with hm | hm
      · exact hnc hm
      · simp at hm⟩

theorem foldl_none_iff_not_saved (ops : List VerifierOp) :
    ops.foldl stepVerifier none = none ↔ ¬ savedSinceLastClear ops := by
  induction ops using List.reverseRecOn with
  | nil => simpa using not_saved_nil
  | append_singleton rest op ih =>
    rw [List.foldl_append]
    cases op with
    | save v =>
      simp only [List.foldl_cons, List.foldl_nil, stepVerifier]
      constructor
      · intro hsome
        simp at hsome
      · intro hns
        exact absurd (saved_append_save rest v) hns
    | clearOp =>
      simp only [List.foldl_cons, List.foldl_nil, stepVerifier]
      simpa using not_saved_append_clear rest
    | readOp =>
      simp only [List.foldl_cons, List.foldl_nil, stepVerifier]
      rw [ih, saved_append_read_iff]

theorem foldl_step_ne_empty (ops : List VerifierOp) (s : Option Str)
    (hs : s ≠ some []) (hne : ∀ v, VerifierOp.save v ∈ ops → v ≠ []) :
    ops.foldl stepVerifier s ≠ some [] := by
  induction ops generalizing s with
  | nil => exact hs
  | cons op rest ih =>
    rw [List.foldl_cons]
    refine ih _ ?_ (fun v hm => hne v (List.mem_cons_of_mem _ hm))
    cases op with
    | save v =>
      have hv := hne v (List.mem_cons_self _ _)
      simpa [stepVerifier] using hv
    | clearOp => simp [stepVerifier]
    | readOp => exact hs

/-- C6 counterexample: saving the empty string is a save since the last
clear, yet the subsequent read fails with the missing-verifier error — the
source's `if (!verifier)` is a JavaScript truthiness check that treats a
stored empty string as missing — refuting both the claimed "fails iff no
save occurred since the last clear" and the claimed "returns the most
recently saved value". -/
theorem codeVerifier_empty_save_still_missing :
    savedSinceLastClear [VerifierOp.save []] ∧
    codeVerifier (runVerifierOps (str "s1") emptyStore [VerifierOp.save []])
      (str "s1") = .error missingVerifierMsg ∧
    ¬ codeVerifier (runVerifierOps (str "s1") emptyStore [VerifierOp.save []])
      (str "s1") = .ok [] := by
  have h2 : codeVerifier (runVerifierOps (str "s1") emptyStore [VerifierOp.save []])
      (str "s1") = .error missingVerifierMsg := rfl
  refine ⟨⟨[], [], [], rfl, by simp⟩, h2, ?_⟩
  rw [h2]
  simp

/-- C6 (amended): starting from a store holding no verifier for the session,
and for every operation trace whose saved verifiers are non-empty (the only
saves the PKCE flow performs), `codeVerifier` fails with the missing-verifier
error if and only if no `saveCodeVerifier` call occurred for the session
since the last clear; and when a save did occur and was followed only by
reads, `codeVerifier` returns the most recently saved value (a save
overwrites any prior verifier).  A saved empty string is treated as missing
by the source's truthiness check, hence the non-emptiness hypothesis. -/
theorem codeVerifier_missing_iff (serverId : Str) (m : VerifierStore)
    (ops : List VerifierOp) (h : m serverId = none)
    (hne : ∀ v, VerifierOp.save v ∈ ops → v ≠ []) :
    (codeVerifier (runVerifierOps serverId m ops) serverId
        = .error missingVerifierMsg ↔ ¬ savedSinceLastClear ops) ∧
    (∀ l₁ v l₂, ops = l₁ ++ VerifierOp.save v :: l₂ →
      (∀ w, VerifierOp.save w ∉ l₂) → VerifierOp.clearOp ∉ l₂ →
      codeVerifier (runVerifierOps serverId m ops) serverId = .ok v) := by
  have hproj : runVerifierOps serverId m ops serverId
      = ops.foldl stepVerifier none := by
    rw [runVerifierOps_proj, h]
  constructor
  · constructor
    · intro herr
      rcases hx : ops.foldl stepVerifier none with - | w
      · exact (foldl_none_iff_not_saved ops).mp hx
      · have hnempty := foldl_step_ne_empty ops none (by simp) hne
        rw [hx] at hnempty
        have hwne : w ≠ [] := fun hw => hnempty (by rw [hw])
        rw [codeVerifier, hproj, hx] at herr
        simp [List.isEmpty_iff, hwne] at herr
    · intro hns
      have hx := (foldl_none_iff_not_saved ops).mpr hns
      rw [codeVerifier, hproj, hx]
  · rintro l₁ v l₂ rfl hs hc
    have hv : v ≠ [] := hne v (by simp)
    have hreads : ∀ op ∈ l₂, op = VerifierOp.readOp := by
      intro op hm
      cases op with
      | save w => exact absurd hm (hs w)
      | clearOp => exact absurd hm hc
      | readOp => rfl
    have hval : (l₁ ++ VerifierOp.save v :: l₂).foldl stepVerifier
        (none : Option Str) = some v := by
      rw [foldl_step_append_save, foldl_step_reads l₂ _ hreads]
    rw [codeVerifier, hproj, hval]
    simp [List.isEmpty_iff, hv]

/-- Witness for C6 (amended): after saving `v1` and then overwriting with
`v2`, the read returns `v2`. -/
theorem codeVerifier_missing_iff_witness :
    codeVerifier (runVerifierOps (str "s1") emptyStore
        [VerifierOp.save (str "v1"), VerifierOp.readOp, VerifierOp.save (str "v2")])
      (str "s1") = .ok (str "v2") :=
  (codeVerifier_missing_iff (str "s1") emptyStore
      [VerifierOp.save (str "v1"), VerifierOp.readOp, VerifierOp.save (str "v2")]
      rfl
      (by
        intro v hv
        simp at hv
        rcases hv with rfl | rfl <;> decide)).2
    [VerifierOp.save (str "v1"), VerifierOp.readOp] (str "v2") [] rfl
    (by intro w; simp) (by simp)

end Archestra
